import Mathlib

/-!
Shallow embedding of the Digital Challenge Coin viewer
(DigitalCoinApp/src/main.py).

The program is a single class `Coin3D` holding rotation angles, a flip
animation counter, texture handles and the last recorded pointer
position, together with a gesture handler, a per-frame `update`, and
per-vertex procedural shading math for the coin edge, faces and
holographic overlay.

Modelling choices:
- `angle_x`, `angle_y` and motion deltas are exact rationals (the Python
  code performs only additions and multiplications by constants on them);
- `flip_anim` and `flip_target` are integers (the Python code only ever
  assigns integer literals and adds integer constants to them);
- the shading functions are real-valued functions of the vertex angle
  and the two rotation angles, translated term by term from the source;
- input events are a tagged union mirroring the pygame event kinds the
  code inspects.
-/

namespace CoinApp

/-- Input events, mirroring the pygame event kinds inspected by
`Coin3D.handle_gesture`: mouse button down (with button number and
position), mouse button up, mouse motion (relative delta plus whether
the primary button is held, i.e. the truthiness of buttons[0]),
finger down (with touch id), finger motion (normalized delta), quit. -/
inductive Event where
  | mouseButtonDown (button : ℕ) (pos : ℤ × ℤ)
  | mouseButtonUp (button : ℕ)
  | mouseMotion (dx dy : ℚ) (primaryHeld : Bool)
  | fingerDown (touch_id : ℕ)
  | fingerMotion (dx dy : ℚ)
  | quit
deriving DecidableEq

/-- The `Coin3D` object state: rotation angles, flip flag, last pointer
position, the two texture handles, and the flip animation counters.
Fields are listed in the order `__init__` assigns them. -/
structure Coin3D where
  angle_x : ℚ
  angle_y : ℚ
  flipped : Bool
  last_pos : Option (ℤ × ℤ)
  front_texture : ℕ
  back_texture : ℕ
  flip_anim : ℤ
  flip_target : ℤ
deriving DecidableEq

/-- `Coin3D.__init__`: zero angles, not flipped, no last position, the
two texture handles returned by `load_texture` (opaque ids here), and
zero flip counters. -/
def Coin3D.init (ft bt : ℕ) : Coin3D :=
  { angle_x := 0
    angle_y := 0
    flipped := false
    last_pos := none
    front_texture := ft
    back_texture := bt
    flip_anim := 0
    flip_target := 0 }

/-- `Coin3D.handle_gesture`: primary mouse press records the position;
secondary mouse press or a touch-down with touch id 2 queues 180 more
degrees of flip; mouse motion with the primary button held adds
`dx * 0.5` to `angle_y` and `dy * 0.5` to `angle_x`; finger motion adds
`dx * 180` to `angle_y` and `dy * 180` to `angle_x`; every other event
leaves the state unchanged. -/
def Coin3D.handle_gesture (c : Coin3D) (e : Event) : Coin3D :=
  match e with
  | .mouseButtonDown b pos =>
      if b = 1 then { c with last_pos := some pos }
      else if b = 3 then { c with flip_target := c.flip_target + 180 }
      else c
  | .mouseMotion dx dy primaryHeld =>
      if primaryHeld then
        { c with angle_y := c.angle_y + dx * 0.5
                 angle_x := c.angle_x + dy * 0.5 }
      else c
  | .fingerDown touch_id =>
      if touch_id = 2 then { c with flip_target := c.flip_target + 180 }
      else c
  | .fingerMotion dx dy =>
      { c with angle_y := c.angle_y + dx * 180
               angle_x := c.angle_x + dy * 180 }
  | _ => c

/-- `Coin3D.update`: if a flip is in flight (`flip_anim < flip_target`),
advance `flip_anim` by 20; when the advanced value reaches or exceeds
`flip_target`, snap both counters to 0 and toggle `flipped`. -/
def Coin3D.update (c : Coin3D) : Coin3D :=
  if c.flip_anim < c.flip_target then
    if c.flip_anim + 20 ≥ c.flip_target then
      { c with flip_anim := 0
               flip_target := 0
               flipped := !c.flipped }
    else
      { c with flip_anim := c.flip_anim + 20 }
  else c

/-- Projection of a coin onto the fields `update` reads and writes:
the pair of flip counters and the flip flag. -/
def Coin3D.flipState (c : Coin3D) : ℤ × ℤ × Bool :=
  (c.flip_anim, c.flip_target, c.flipped)

/-- The action of `Coin3D.update` on the flip-state projection. -/
def flipStep (p : ℤ × ℤ × Bool) : ℤ × ℤ × Bool :=
  if p.1 < p.2.1 then
    if p.1 + 20 ≥ p.2.1 then (0, 0, !p.2.2)
    else (p.1 + 20, p.2.1, p.2.2)
  else p

/-- Number of frames among the first `n` updates from `c` in which the
`flipped` flag changes. -/
def toggleCount (c : Coin3D) (n : ℕ) : ℕ :=
  (List.range n).countP
    (fun k => (Coin3D.update^[k + 1] c).flipped != (Coin3D.update^[k] c).flipped)

/-- States reachable from a fresh coin by any interleaving of gesture
handling and frame updates. -/
inductive Reachable : Coin3D → Prop where
  | init (ft bt : ℕ) : Reachable (Coin3D.init ft bt)
  | gesture {c : Coin3D} (e : Event) : Reachable c → Reachable (c.handle_gesture e)
  | update {c : Coin3D} : Reachable c → Reachable c.update

lemma flipState_update (c : Coin3D) : c.update.flipState = flipStep c.flipState := by
  simp only [Coin3D.update, flipStep, Coin3D.flipState]
  split_ifs <;> rfl

lemma flipState_iterate (c : Coin3D) (n : ℕ) :
    (Coin3D.update^[n] c).flipState = flipStep^[n] c.flipState := by
  induction n with
  | zero => rfl
  | succ n ih =>
      rw [Function.iterate_succ_apply', Function.iterate_succ_apply',
        flipState_update, ih]

lemma flip_anim_iterate (c : Coin3D) (n : ℕ) :
    (Coin3D.update^[n] c).flip_anim = (flipStep^[n] c.flipState).1 :=
  congrArg Prod.fst (flipState_iterate c n)

lemma flip_target_iterate (c : Coin3D) (n : ℕ) :
    (Coin3D.update^[n] c).flip_target = (flipStep^[n] c.flipState).2.1 :=
  congrArg (fun p => p.2.1) (flipState_iterate c n)

lemma flipped_iterate (c : Coin3D) (n : ℕ) :
    (Coin3D.update^[n] c).flipped = (flipStep^[n] c.flipState).2.2 :=
  congrArg (fun p => p.2.2) (flipState_iterate c n)

/-! Per-vertex procedural shading math, translated from `draw_edge`,
`draw_face` and `draw_holo_shine`.  Each function takes the vertex angle
`θ` (radians) and the current rotation state `ax = angle_x`,
`ay = angle_y` as real numbers. -/

noncomputable section

/-- The angle, in radians, of the k-th rim vertex: the loops run
`for i in range(0, 361, 5)` with `theta = math.radians(i)`, so the k-th
step has `i = 5 * k`. -/
def vertex_theta (k : ℕ) : ℝ := ((5 * k : ℕ) : ℝ) * Real.pi / 180

/-- `draw_holo_shine` local `holo`: the holographic interpolation
factor `0.5 + 0.5 * sin(angle_x/25 + theta*3 + angle_y/25)`. -/
def holo (θ ax ay : ℝ) : ℝ := 0.5 + 0.5 * Real.sin (ax / 25 + θ * 3 + ay / 25)

/-- `draw_holo_shine` red channel `0.85 + 0.15 * holo`. -/
def holo_r (θ ax ay : ℝ) : ℝ := 0.85 + 0.15 * holo θ ax ay

/-- `draw_holo_shine` green channel `0.85 + 0.15 * (1 - holo)`. -/
def holo_g (θ ax ay : ℝ) : ℝ := 0.85 + 0.15 * (1 - holo θ ax ay)

/-- `draw_holo_shine` blue channel, the constant `1.0`. -/
def holo_b : ℝ := 1.0

/-- `draw_holo_shine` alpha `0.08 + 0.07 * abs(cos(theta + angle_y/40))`. -/
def holo_alpha (θ ay : ℝ) : ℝ := 0.08 + 0.07 * |Real.cos (θ + ay / 40)|

/-- `draw_face` local `rim`: base brightness of the bevel gradient. -/
def rim (θ ax ay : ℝ) : ℝ :=
  0.28 + 0.42 * ((Real.sin (θ * 2 + ay / 8) + Real.cos (θ * 3 + ax / 12)) * 0.5 + 0.5)

/-- `draw_face` local `shadow`: the inner shadow term. -/
def shadow (θ ax : ℝ) : ℝ := 0.07 + 0.10 * |Real.sin (θ + ax / 20)|

/-- `draw_face` per-vertex grey level `rim - shadow`, used for all three
channels of `bevel_color`. -/
def bevel_color (θ ax ay : ℝ) : ℝ := rim θ ax ay - shadow θ ax

/-- `draw_edge` local `band`: the iridescent band selector. -/
def band (θ ax ay : ℝ) : ℝ :=
  (Real.sin (θ * 2 + ay / 6) + Real.cos (θ * 3 + ax / 9)) * 0.5 + 0.5

/-- `draw_edge` local `mirror`: the sharp specular highlight
`pow(abs(cos(theta - angle_y * pi / 180)), 18)`. -/
def mirror (θ ay : ℝ) : ℝ := |Real.cos (θ - ay * Real.pi / 180)| ^ (18 : ℕ)

/-- `draw_edge` local `noise`: the low-amplitude surface variation. -/
def noise (θ ax ay : ℝ) : ℝ :=
  0.07 * Real.sin (θ * 10 + ax / 8) + 0.07 * Real.cos (θ * 5 + ay / 11)

/-- `draw_edge` hue base: the four-way branch on `band` selecting the
blue, green, gold or magenta base color. -/
def band_base (b : ℝ) : ℝ × ℝ × ℝ :=
  if b < 0.25 then (0.2, 0.5, 0.9)
  else if b < 0.5 then (0.2, 0.8, 0.4)
  else if b < 0.75 then (0.9, 0.8, 0.2)
  else (0.8, 0.2, 0.7)

/-- `draw_edge` front-edge red channel after mirror, noise and the
`min(max(·, 0.08), 1.0)` clamp. -/
def edge_r (θ ax ay : ℝ) : ℝ :=
  min (max ((band_base (band θ ax ay)).1 + 0.7 * mirror θ ay + noise θ ax ay) 0.08) 1.0

/-- `draw_edge` front-edge green channel after mirror, noise and the
`min(max(·, 0.08), 1.0)` clamp. -/
def edge_g (θ ax ay : ℝ) : ℝ :=
  min (max ((band_base (band θ ax ay)).2.1 + 0.7 * mirror θ ay + noise θ ax ay) 0.08) 1.0

/-- `draw_edge` front-edge blue channel after mirror, noise and the
`min(max(·, 0.12), 1.0)` clamp. -/
def edge_b (θ ax ay : ℝ) : ℝ :=
  min (max ((band_base (band θ ax ay)).2.2 + 0.7 * mirror θ ay + noise θ ax ay) 0.12) 1.0

/-- `draw_edge` darkened back-edge red channel `r * 0.25 + 0.1`. -/
def edge_back_r (θ ax ay : ℝ) : ℝ := edge_r θ ax ay * 0.25 + 0.1

/-- `draw_edge` darkened back-edge green channel `g * 0.25 + 0.1`. -/
def edge_back_g (θ ax ay : ℝ) : ℝ := edge_g θ ax ay * 0.25 + 0.1

/-- `draw_edge` darkened back-edge blue channel `b * 0.25 + 0.1`. -/
def edge_back_b (θ ax ay : ℝ) : ℝ := edge_b θ ax ay * 0.25 + 0.1

end

/-- Whether the event is a rotation drag the handler acts on: mouse
motion with the primary button held, or finger motion. -/
def Event.isDrag : Event → Prop
  | .mouseMotion _ _ primaryHeld => primaryHeld = true
  | .fingerMotion _ _ => True
  | _ => False

/-- The scaled delta a drag event adds to `angle_y`. -/
def Event.dAngleY : Event → ℚ
  | .mouseMotion dx _ _ => dx * 0.5
  | .fingerMotion dx _ => dx * 180
  | _ => 0

/-- The scaled delta a drag event adds to `angle_x`. -/
def Event.dAngleX : Event → ℚ
  | .mouseMotion _ dy _ => dy * 0.5
  | .fingerMotion _ dy => dy * 180
  | _ => 0

/-- C9: for every state, `update` leaves `angle_x`, `angle_y`,
`last_pos`, `front_texture` and `back_texture` unchanged; it touches
only the flip counters and the `flipped` flag. -/
theorem update_frame_condition (c : Coin3D) :
    c.update.angle_x = c.angle_x ∧ c.update.angle_y = c.angle_y ∧
    c.update.last_pos = c.last_pos ∧ c.update.front_texture = c.front_texture ∧
    c.update.back_texture = c.back_texture := by
  simp only [Coin3D.update]
  split_ifs <;> exact ⟨rfl, rfl, rfl, rfl, rfl⟩

/-- C10: `handle_gesture` leaves the whole state unchanged on a mouse
button-down with a button other than 1 or 3, a touch-down with touch id
other than 2, a mouse motion with the primary button not held, a mouse
button-up, and a quit event. -/
theorem handle_gesture_noop_cases (c : Coin3D) :
    (∀ (b : ℕ) (pos : ℤ × ℤ), b ≠ 1 → b ≠ 3 →
      c.handle_gesture (Event.mouseButtonDown b pos) = c) ∧
    (∀ tid : ℕ, tid ≠ 2 → c.handle_gesture (Event.fingerDown tid) = c) ∧
    (∀ dx dy : ℚ, c.handle_gesture (Event.mouseMotion dx dy false) = c) ∧
    (∀ b : ℕ, c.handle_gesture (Event.mouseButtonUp b) = c) ∧
    c.handle_gesture Event.quit = c := by
  refine ⟨fun b pos h1 h3 => ?_, fun tid h2 => ?_, fun dx dy => rfl, fun b => rfl, rfl⟩
  · simp [Coin3D.handle_gesture, h1, h3]
  · simp [Coin3D.handle_gesture, h2]

/-- Witness for C10 at concrete no-op events from the fresh coin. -/
theorem handle_gesture_noop_cases_witness :
    (Coin3D.init 0 0).handle_gesture (Event.mouseButtonDown 2 (5, 5)) = Coin3D.init 0 0 ∧
    (Coin3D.init 0 0).handle_gesture (Event.fingerDown 0) = Coin3D.init 0 0 ∧
    (Coin3D.init 0 0).handle_gesture (Event.mouseMotion 1 1 false) = Coin3D.init 0 0 ∧
    (Coin3D.init 0 0).handle_gesture (Event.mouseButtonUp 1) = Coin3D.init 0 0 ∧
    (Coin3D.init 0 0).handle_gesture Event.quit = Coin3D.init 0 0 :=
  ⟨(handle_gesture_noop_cases (Coin3D.init 0 0)).1 2 (5, 5) (by decide) (by decide),
   (handle_gesture_noop_cases (Coin3D.init 0 0)).2.1 0 (by decide),
   (handle_gesture_noop_cases (Coin3D.init 0 0)).2.2.1 1 1,
   (handle_gesture_noop_cases (Coin3D.init 0 0)).2.2.2.1 1,
   (handle_gesture_noop_cases (Coin3D.init 0 0)).2.2.2.2⟩

/-- C5: a held mouse motion adds `dx * 0.5` to `angle_y` and `dy * 0.5`
to `angle_x`; a finger motion adds `dx * 180` to `angle_y` and
`dy * 180` to `angle_x`; in particular rel = (10, -5) gives
`angle_y += 5` and `angle_x += -2.5`, and the touch scale 180 is 360
times the mouse scale 0.5. -/
theorem drag_sensitivity (c : Coin3D) (dx dy : ℚ) :
    ((c.handle_gesture (Event.mouseMotion dx dy true)).angle_y = c.angle_y + dx * 0.5 ∧
     (c.handle_gesture (Event.mouseMotion dx dy true)).angle_x = c.angle_x + dy * 0.5) ∧
    ((c.handle_gesture (Event.fingerMotion dx dy)).angle_y = c.angle_y + dx * 180 ∧
     (c.handle_gesture (Event.fingerMotion dx dy)).angle_x = c.angle_x + dy * 180) ∧
    ((c.handle_gesture (Event.mouseMotion 10 (-5) true)).angle_y = c.angle_y + 5 ∧
     (c.handle_gesture (Event.mouseMotion 10 (-5) true)).angle_x = c.angle_x + (-2.5)) ∧
    dx * 180 = 360 * (dx * 0.5) := by
  refine ⟨⟨rfl, rfl⟩, ⟨rfl, rfl⟩, ⟨?_, ?_⟩, by ring⟩ <;>
    simp [Coin3D.handle_gesture] <;> norm_num

/-- C7: any two drag events commute, and together they add the sum of
their scaled deltas to the angles. -/
theorem rotation_additive_commutative (c : Coin3D) (e1 e2 : Event)
    (h1 : e1.isDrag) (h2 : e2.isDrag) :
    ((c.handle_gesture e1).handle_gesture e2).angle_x =
      ((c.handle_gesture e2).handle_gesture e1).angle_x ∧
    ((c.handle_gesture e1).handle_gesture e2).angle_y =
      ((c.handle_gesture e2).handle_gesture e1).angle_y ∧
    ((c.handle_gesture e1).handle_gesture e2).angle_x =
      c.angle_x + (e1.dAngleX + e2.dAngleX) ∧
    ((c.handle_gesture e1).handle_gesture e2).angle_y =
      c.angle_y + (e1.dAngleY + e2.dAngleY) := by
  cases e1 <;> cases e2 <;>
    simp_all [Event.isDrag, Coin3D.handle_gesture, Event.dAngleX, Event.dAngleY] <;>
    exact ⟨by ring, by ring, by ring, by ring⟩

/-- Witness for C7 at a held mouse drag followed by a finger motion
from the fresh coin. -/
theorem rotation_additive_commutative_witness :
    (((Coin3D.init 0 0).handle_gesture (Event.mouseMotion 10 (-5) true)).handle_gesture
        (Event.fingerMotion 1 2)).angle_x =
      (((Coin3D.init 0 0).handle_gesture (Event.fingerMotion 1 2)).handle_gesture
        (Event.mouseMotion 10 (-5) true)).angle_x ∧
    (((Coin3D.init 0 0).handle_gesture (Event.mouseMotion 10 (-5) true)).handle_gesture
        (Event.fingerMotion 1 2)).angle_y =
      (((Coin3D.init 0 0).handle_gesture (Event.fingerMotion 1 2)).handle_gesture
        (Event.mouseMotion 10 (-5) true)).angle_y ∧
    (((Coin3D.init 0 0).handle_gesture (Event.mouseMotion 10 (-5) true)).handle_gesture
        (Event.fingerMotion 1 2)).angle_x =
      (Coin3D.init 0 0).angle_x +
        ((Event.mouseMotion 10 (-5) true).dAngleX + (Event.fingerMotion 1 2).dAngleX) ∧
    (((Coin3D.init 0 0).handle_gesture (Event.mouseMotion 10 (-5) true)).handle_gesture
        (Event.fingerMotion 1 2)).angle_y =
      (Coin3D.init 0 0).angle_y +
        ((Event.mouseMotion 10 (-5) true).dAngleY + (Event.fingerMotion 1 2).dAngleY) :=
  rotation_additive_commutative (Coin3D.init 0 0) (Event.mouseMotion 10 (-5) true)
    (Event.fingerMotion 1 2) rfl True.intro

/-- C6: for every rotation state and every one of the 73 rim steps, the
clamped front-edge red and green channels lie in [0.08, 1], the clamped
front-edge blue channel lies in [0.12, 1], and the darkened back-edge
channels lie in the same ranges. -/
theorem edge_color_clamped (k : Fin 73) (ax ay : ℝ) :
    (0.08 ≤ edge_r (vertex_theta k) ax ay ∧ edge_r (vertex_theta k) ax ay ≤ 1) ∧
    (0.08 ≤ edge_g (vertex_theta k) ax ay ∧ edge_g (vertex_theta k) ax ay ≤ 1) ∧
    (0.12 ≤ edge_b (vertex_theta k) ax ay ∧ edge_b (vertex_theta k) ax ay ≤ 1) ∧
    (0.08 ≤ edge_back_r (vertex_theta k) ax ay ∧ edge_back_r (vertex_theta k) ax ay ≤ 1) ∧
    (0.08 ≤ edge_back_g (vertex_theta k) ax ay ∧ edge_back_g (vertex_theta k) ax ay ≤ 1) ∧
    (0.12 ≤ edge_back_b (vertex_theta k) ax ay ∧ edge_back_b (vertex_theta k) ax ay ≤ 1) := by
  have hr1 : (0.08 : ℝ) ≤ edge_r (vertex_theta k) ax ay := by
    unfold edge_r; exact le_min (le_max_right _ _) (by norm_num)
  have hr2 : edge_r (vertex_theta k) ax ay ≤ 1 := by
    unfold edge_r; exact le_trans (min_le_right _ _) (by norm_num)
  have hg1 : (0.08 : ℝ) ≤ edge_g (vertex_theta k) ax ay := by
    unfold edge_g; exact le_min (le_max_right _ _) (by norm_num)
  have hg2 : edge_g (vertex_theta k) ax ay ≤ 1 := by
    unfold edge_g; exact le_trans (min_le_right _ _) (by norm_num)
  have hb1 : (0.12 : ℝ) ≤ edge_b (vertex_theta k) ax ay := by
    unfold edge_b; exact le_min (le_max_right _ _) (by norm_num)
  have hb2 : edge_b (vertex_theta k) ax ay ≤ 1 := by
    unfold edge_b; exact le_trans (min_le_right _ _) (by norm_num)
  refine ⟨⟨hr1, hr2⟩, ⟨hg1, hg2⟩, ⟨hb1, hb2⟩, ⟨?_, ?_⟩, ⟨?_, ?_⟩, ⟨?_, ?_⟩⟩ <;>
    simp only [edge_back_r, edge_back_g, edge_back_b] <;> linarith

lemma reachable_flip_bounds {c : Coin3D} (h : Reachable c) :
    0 ≤ c.flip_anim ∧ c.flip_anim ≤ c.flip_target := by
  induction h with
  | init ft bt => exact ⟨le_refl 0, le_refl 0⟩
  | gesture e h ih =>
      obtain ⟨ih1, ih2⟩ := ih
      cases e <;> simp only [Coin3D.handle_gesture] <;> (try split_ifs) <;>
        (try dsimp only) <;> omega
  | update h ih =>
      obtain ⟨ih1, ih2⟩ := ih
      simp only [Coin3D.update]
      split_ifs <;> (try dsimp only) <;> omega

lemma reachable_flip_dvd {c : Coin3D} (h : Reachable c) :
    20 ∣ c.flip_anim ∧ 180 ∣ c.flip_target := by
  induction h with
  | init ft bt => exact ⟨dvd_zero 20, dvd_zero 180⟩
  | gesture e h ih =>
      obtain ⟨ih1, ih2⟩ := ih
      cases e <;> simp only [Coin3D.handle_gesture] <;> (try split_ifs) <;>
        (try dsimp only) <;> omega
  | update h ih =>
      obtain ⟨ih1, ih2⟩ := ih
      simp only [Coin3D.update]
      split_ifs <;> (try dsimp only) <;> omega

/-- C3: in every reachable state `flip_anim` lies in `[0, flip_target]`,
and the `update` call in which the advanced `flip_anim` reaches or
exceeds `flip_target` resets both counters to 0 and toggles `flipped`
exactly once. -/
theorem flip_invariant_reachable (c : Coin3D) (h : Reachable c) :
    (0 ≤ c.flip_anim ∧ c.flip_anim ≤ c.flip_target) ∧
    (c.flip_anim < c.flip_target → c.flip_target ≤ c.flip_anim + 20 →
      c.update.flip_anim = 0 ∧ c.update.flip_target = 0 ∧
      c.update.flipped = !c.flipped) := by
  refine ⟨reachable_flip_bounds h, fun h1 h2 => ?_⟩
  have hge : c.flip_anim + 20 ≥ c.flip_target := by omega
  simp [Coin3D.update, if_pos h1, if_pos hge]

/-- Witness for C3 at the reachable state reached by one secondary
press from the fresh coin. -/
theorem flip_invariant_reachable_witness :
    (0 ≤ ((Coin3D.init 0 0).handle_gesture (Event.mouseButtonDown 3 (0, 0))).flip_anim ∧
      ((Coin3D.init 0 0).handle_gesture (Event.mouseButtonDown 3 (0, 0))).flip_anim ≤
        ((Coin3D.init 0 0).handle_gesture (Event.mouseButtonDown 3 (0, 0))).flip_target) ∧
    (((Coin3D.init 0 0).handle_gesture (Event.mouseButtonDown 3 (0, 0))).flip_anim <
        ((Coin3D.init 0 0).handle_gesture (Event.mouseButtonDown 3 (0, 0))).flip_target →
      ((Coin3D.init 0 0).handle_gesture (Event.mouseButtonDown 3 (0, 0))).flip_target ≤
        ((Coin3D.init 0 0).handle_gesture (Event.mouseButtonDown 3 (0, 0))).flip_anim + 20 →
      ((Coin3D.init 0 0).handle_gesture (Event.mouseButtonDown 3 (0, 0))).update.flip_anim = 0 ∧
      ((Coin3D.init 0 0).handle_gesture (Event.mouseButtonDown 3 (0, 0))).update.flip_target = 0 ∧
      ((Coin3D.init 0 0).handle_gesture (Event.mouseButtonDown 3 (0, 0))).update.flipped =
        !((Coin3D.init 0 0).handle_gesture (Event.mouseButtonDown 3 (0, 0))).flipped) :=
  flip_invariant_reachable _
    (Reachable.gesture (Event.mouseButtonDown 3 (0, 0)) (Reachable.init 0 0))

/-- C8: in every reachable state `flip_anim` is a non-negative integer
multiple of 20 and `flip_target` is a non-negative integer multiple
of 180. -/
theorem flip_multiples_invariant (c : Coin3D) (h : Reachable c) :
    (∃ k : ℕ, c.flip_anim = 20 * (k : ℤ)) ∧
    (∃ m : ℕ, c.flip_target = 180 * (m : ℤ)) := by
  obtain ⟨h1, h2⟩ := reachable_flip_dvd h
  obtain ⟨hb1, hb2⟩ := reachable_flip_bounds h
  constructor
  · obtain ⟨a, ha⟩ := h1
    exact ⟨a.toNat, by omega⟩
  · obtain ⟨m, hm⟩ := h2
    exact ⟨m.toNat, by omega⟩

/-- Witness for C8 at the reachable state reached by one secondary
press from the fresh coin. -/
theorem flip_multiples_invariant_witness :
    (∃ k : ℕ, ((Coin3D.init 0 0).handle_gesture
      (Event.mouseButtonDown 3 (0, 0))).flip_anim = 20 * (k : ℤ)) ∧
    (∃ m : ℕ, ((Coin3D.init 0 0).handle_gesture
      (Event.mouseButtonDown 3 (0, 0))).flip_target = 180 * (m : ℤ)) :=
  flip_multiples_invariant _
    (Reachable.gesture (Event.mouseButtonDown 3 (0, 0)) (Reachable.init 0 0))

/-- C4: from a fresh coin, one secondary press sets `flip_target` to
180; `flip_anim` stays strictly below `flip_target` after each of the
first 8 updates, and after the 9th update both counters are 0 and
`flipped` has become true. -/
theorem single_flip_scenario (ft bt : ℕ) (pos : ℤ × ℤ) :
    ((Coin3D.init ft bt).handle_gesture (Event.mouseButtonDown 3 pos)).flip_target = 180 ∧
    (∀ k : Fin 8,
      (Coin3D.update^[(k : ℕ) + 1]
        ((Coin3D.init ft bt).handle_gesture (Event.mouseButtonDown 3 pos))).flip_anim <
      (Coin3D.update^[(k : ℕ) + 1]
        ((Coin3D.init ft bt).handle_gesture (Event.mouseButtonDown 3 pos))).flip_target) ∧
    (Coin3D.update^[9]
      ((Coin3D.init ft bt).handle_gesture (Event.mouseButtonDown 3 pos))).flip_anim = 0 ∧
    (Coin3D.update^[9]
      ((Coin3D.init ft bt).handle_gesture (Event.mouseButtonDown 3 pos))).flip_target = 0 ∧
    (Coin3D.update^[9]
      ((Coin3D.init ft bt).handle_gesture (Event.mouseButtonDown 3 pos))).flipped = true := by
  have hs : ((Coin3D.init ft bt).handle_gesture (Event.mouseButtonDown 3 pos)).flipState
      = ((0 : ℤ), (180 : ℤ), false) := by
    simp [Coin3D.init, Coin3D.handle_gesture, Coin3D.flipState]
  refine ⟨?_, ?_, ?_, ?_, ?_⟩
  · exact congrArg (fun p => p.2.1) hs
  · intro k
    rw [flip_anim_iterate, flip_target_iterate, hs]
    fin_cases k <;> decide
  · rw [flip_anim_iterate, hs]; decide
  · rw [flip_target_iterate, hs]; decide
  · rw [flipped_iterate, hs]; decide

/-- The coin after a secondary press, one update, and a second
secondary press before the in-flight flip completes. -/
def twoFlipQueue : Coin3D :=
  Coin3D.handle_gesture
    (Coin3D.update ((Coin3D.init 0 0).handle_gesture (Event.mouseButtonDown 3 (0, 0))))
    (Event.mouseButtonDown 3 (0, 0))

/-- C1 counterexample: queuing `flip_target += 180` twice before the
in-flight flip completes, then running `update` until `flip_target`
first returns to 0 (18 gesture-free frames in total, 17 after the
second press), toggles `flipped` exactly once, not twice. -/
theorem two_queued_flips_single_toggle_counterexample :
    (∀ n : Fin 17, (Coin3D.update^[(n : ℕ)] twoFlipQueue).flip_target ≠ 0) ∧
    (Coin3D.update^[17] twoFlipQueue).flip_target = 0 ∧
    toggleCount twoFlipQueue 17 = 1 ∧ toggleCount twoFlipQueue 17 ≠ 2 := by
  decide

/-- C1 amended: queuing two 180-degree increments before completion
compounds `flip_target` to 360 and yields one longer animation; when
`flip_target` returns to 0 (after 17 further updates) `flipped` has
toggled exactly once — one toggle per completed animation, not one per
queued increment. -/
theorem two_queued_flips_toggle_once :
    twoFlipQueue.flip_anim = 20 ∧ twoFlipQueue.flip_target = 360 ∧
    (Coin3D.update^[17] twoFlipQueue).flip_anim = 0 ∧
    (Coin3D.update^[17] twoFlipQueue).flip_target = 0 ∧
    (Coin3D.update^[17] twoFlipQueue).flipped = true ∧
    toggleCount twoFlipQueue 17 = 1 := by
  decide

/-- C2 amended: for every vertex angle and every rotation state, all
`draw_holo_shine` channels and the alpha lie in [0, 1], but the
`draw_face` bevel grey level `rim - shadow` is only guaranteed to lie
in [-0.10, 0.84]: it is not clamped and can be negative. -/
theorem shading_channel_bounds (θ ax ay : ℝ) :
    (0 ≤ holo_r θ ax ay ∧ holo_r θ ax ay ≤ 1) ∧
    (0 ≤ holo_g θ ax ay ∧ holo_g θ ax ay ≤ 1) ∧
    (0 ≤ holo_b ∧ holo_b ≤ 1) ∧
    (0 ≤ holo_alpha θ ay ∧ holo_alpha θ ay ≤ 1) ∧
    (-(0.10) ≤ bevel_color θ ax ay ∧ bevel_color θ ax ay ≤ 0.84) := by
  have hs1 := Real.neg_one_le_sin (ax / 25 + θ * 3 + ay / 25)
  have hs2 := Real.sin_le_one (ax / 25 + θ * 3 + ay / 25)
  have hc0 : 0 ≤ |Real.cos (θ + ay / 40)| := abs_nonneg _
  have hc1 : |Real.cos (θ + ay / 40)| ≤ 1 := Real.abs_cos_le_one _
  have hr1 := Real.neg_one_le_sin (θ * 2 + ay / 8)
  have hr2 := Real.sin_le_one (θ * 2 + ay / 8)
  have hr3 := Real.neg_one_le_cos (θ * 3 + ax / 12)
  have hr4 := Real.cos_le_one (θ * 3 + ax / 12)
  have hsh0 : 0 ≤ |Real.sin (θ + ax / 20)| := abs_nonneg _
  have hsh1 : |Real.sin (θ + ax / 20)| ≤ 1 := Real.abs_sin_le_one _
  simp only [holo_r, holo_g, holo_b, holo_alpha, bevel_color, holo, rim, shadow]
  refine ⟨⟨by linarith, by linarith⟩, ⟨by linarith, by linarith⟩,
    ⟨by norm_num, by norm_num⟩, ⟨by linarith, by linarith⟩,
    ⟨by linarith, by linarith⟩⟩

/-- C2 counterexample: at the first rim vertex (θ = 0) with rotation
state angle_x = 12π, angle_y = -4π, the `draw_face` bevel grey level
`rim - shadow` is strictly negative, so not every color value passed to
the rasterizer lies in [0, 1]. -/
theorem face_bevel_negative_counterexample :
    bevel_color (vertex_theta 0) (12 * Real.pi) (-(4 * Real.pi)) < 0 := by
  have hθ : vertex_theta 0 = 0 := by simp [vertex_theta]
  rw [hθ]
  simp only [bevel_color, rim, shadow]
  have h1 : Real.sin ((0 : ℝ) * 2 + -(4 * Real.pi) / 8) = -1 := by
    have e : (0 : ℝ) * 2 + -(4 * Real.pi) / 8 = -(Real.pi / 2) := by ring
    rw [e, Real.sin_neg, Real.sin_pi_div_two]
  have h2 : Real.cos ((0 : ℝ) * 3 + 12 * Real.pi / 12) = -1 := by
    have e : (0 : ℝ) * 3 + 12 * Real.pi / 12 = Real.pi := by ring
    rw [e, Real.cos_pi]
  have h3 : 0 < Real.sin ((0 : ℝ) + 12 * Real.pi / 20) := by
    apply Real.sin_pos_of_pos_of_lt_pi
    · have := Real.pi_pos
      linarith
    · have := Real.pi_pos
      linarith
  have h4 : |Real.sin ((0 : ℝ) + 12 * Real.pi / 20)| =
      Real.sin ((0 : ℝ) + 12 * Real.pi / 20) := abs_of_pos h3
  rw [h1, h2, h4]
  linarith

end CoinApp
